import Mathlib

/-!
Verification of `pretty` (bijij/pretty), module `pretty/traceback/formatter.py`.

Shallow embedding of the traceback-formatting engine:
* the frame walker/extractor (`DefaultTracebackFormatter.walk_stack`,
  `walk_traceback`, `extract_frames`);
* the exception-chain formatter (`DefaultTracebackFormatter.format_exception`);
* the summary-line builder (`DefaultTracebackFormatter.format_exception_line`,
  `TracebackFormatter._try_name`, `_try_str`, `_try_repr`, `_try_unprintable`).

Frames are opaque and identified by a natural number (`f_code` id).  Exception
objects are identified by their Python identity (`id(value)`), a natural
number, with their fields (`__cause__`, `__context__`, `__suppress_context__`,
`__traceback__`, display strings) given by an environment function.
Machine-level concerns (the `linecache.lazycache` warming side effect, which
never affects the yielded frames, and the colour theme) are not modelled.
-/

namespace Pretty

/-- Kinds of Python exceptions that the modelled code can raise or catch.
`attributeError` is the only kind `_try_name` catches; `typeError` is what
iterating a non-iterable (`None`) raises; `unboundLocalError` is what the
`finally: return name` in `_try_name` raises when `name` was never bound;
`otherError` stands for any further kind. -/
inductive PyErr where
  | attributeError
  | typeError
  | unboundLocalError
  | otherError
  deriving DecidableEq, Repr

/-- A live-stack frame object (`types.FrameType`): its code identity and its
`f_back` caller link.  `last f` is a frame whose `f_back` is `None`;
`cons f b` is a frame whose `f_back` is the frame `b` (innermost frame
first when walked). -/
inductive LiveFrame where
  | last (f_code : Nat)
  | cons (f_code : Nat) (f_back : LiveFrame)

/-- A traceback object (`types.TracebackType`): its `tb_frame` and its
`tb_next` callee link.  `last f` is a node whose `tb_next` is `None`
(outermost frame first when walked). -/
inductive Tb where
  | last (tb_frame : Nat)
  | cons (tb_frame : Nat) (tb_next : Tb)

/-- The loop body of `walk_stack`: yield the frame, move to `f_back`,
stop at `None`. -/
def LiveFrame.walk : LiveFrame → List Nat
  | .last f => [f]
  | .cons f b => f :: b.walk

/-- Python `DefaultTracebackFormatter.walk_stack`: `while frame is not None`,
follow `f_back` links, yielding each frame; yields innermost-first. -/
def walk_stack : Option LiveFrame → List Nat
  | none => []
  | some f => f.walk

/-- The loop body of `walk_traceback`: yield `tb_frame`, move to `tb_next`,
stop at `None`. -/
def Tb.walk : Tb → List Nat
  | .last f => [f]
  | .cons f n => f :: n.walk

/-- Python `DefaultTracebackFormatter.walk_traceback`: `while traceback is not
None`, follow `tb_next` links, yielding each `tb_frame`; yields
outermost-first. -/
def walk_traceback : Option Tb → List Nat
  | none => []
  | some t => t.walk

/-- The `obj` argument of `DefaultTracebackFormatter.extract_frames`: a frame
object, a traceback object, an already-materialized sequence of frames
(the fall-through `generator = obj` branch), or Python `None` (which also
falls through to that branch). -/
inductive Source where
  | frame (f : LiveFrame)
  | traceback (t : Tb)
  | frames (xs : List Nat)
  | pynone

/-- The line `limit = limit or getattr(sys, "tracebacklimit", None)`:
a falsy limit (Python `None`, modelled `none`, or `0`) is replaced by the
process-wide `sys.tracebacklimit` value (an explicit parameter here,
`none` when the attribute is unset). -/
def effective_limit (limit tracebacklimit : Option Int) : Option Int :=
  match limit with
  | some l => if l = 0 then tracebacklimit else some l
  | none => tracebacklimit

/-- The windowing step of `extract_frames`: `itertools.islice(generator,
limit)` for a non-negative limit (first `limit` frames), and
`collections.deque(generator, -limit)` for a negative limit (the last
`-limit` frames in original order, after full traversal). -/
def apply_window (limit : Option Int) (xs : List Nat) : List Nat :=
  match limit with
  | none => xs
  | some l => if 0 ≤ l then xs.take l.toNat else xs.drop (xs.length - (-l).toNat)

/-- Python `DefaultTracebackFormatter.extract_frames`.  A frame object is walked via
`walk_stack` and reversed; a traceback object is walked via `walk_traceback`;
anything else is used as the iterable itself, so Python `None` raises
`TypeError` when the generator is consumed (`for frame in None`, or
`itertools.islice(None, l)` / `collections.deque(None, -l)`).  The
`linecache.lazycache` call per yielded frame is a best-effort cache-warming
side effect that never alters the yielded frames and is not modelled. -/
def extract_frames (obj : Source) (limit tracebacklimit : Option Int) :
    Except PyErr (List Nat) :=
  match obj with
  | .pynone => .error .typeError
  | .frame f =>
      .ok (apply_window (effective_limit limit tracebacklimit) (walk_stack (some f)).reverse)
  | .traceback t =>
      .ok (apply_window (effective_limit limit tracebacklimit) (walk_traceback (some t)))
  | .frames xs =>
      .ok (apply_window (effective_limit limit tracebacklimit) xs)

/-- Constant `DefaultTracebackFormatter.cause_header`
(= `traceback._cause_message`). -/
def cause_header : String :=
  "\nThe above exception was the direct cause of the following exception:\n\n"

/-- Constant `DefaultTracebackFormatter.context_header`
(= `traceback._context_message`). -/
def context_header : String :=
  "\nDuring handling of the above exception, another exception occurred:\n\n"

/-- Constant `DefaultTracebackFormatter.traceback_header`. -/
def traceback_header : String := "Traceback (most recent call last):\n"

/-- Modelled from the spec: the concrete `format_frames` body is not present
in this snapshot of the repository (only its abstract declaration, documented
as synonymous to `traceback.format_list`, whose signature
`format_frames(self, frames, **kwargs)` takes no `limit` parameter).  The
spec (§4.2 step 3) says the frame-rendering emits one or more lines per
frame in a stable format; we model one stable line per frame. -/
def frame_line (f : Nat) : String := "  File frame " ++ toString f ++ "\n"

/-- Modelled from the spec: `format_frames` renders each frame of the
iterable it is given, in order (see `frame_line`).  Extra keyword arguments
(such as the `limit=limit` passed at `format_exception` line 725) are
accepted into `**kwargs` and take no part in its contract. -/
def format_frames (frames : List Nat) : List String := frames.map frame_line

/-- The fields of one exception object, looked up by its Python identity:
`__cause__` and `__context__` (identities of other exception objects),
`__suppress_context__`, `__traceback__`, and the display strings used by the
summary line (the resolved type name and `str(value)`). -/
structure ExcData where
  cause : Option Nat
  context : Option Nat
  suppress_context : Bool
  tb : Option Tb
  tyName : String
  msg : String

/-- The summary line for `format_exception(None, None, ...)`:
`_try_name(None)` hits the `AttributeError` branch
(`None` has no `__name__`) giving `<unprintable NoneType object>`, and the
`value is None` test then selects the colon-free form. -/
def none_summary : String := "<unprintable NoneType object>\n"

/-- The `format_exception_only` step at `format_exception` line 727, as
implemented by `format_exception_line` (spec §4.2 step 4) on an exception
whose display strings resolved: `"{TypeName}: {message}\n"`, or
`"{TypeName}\n"` when the stringified message is empty or the value is
`None`.  (The fallible resolution itself is modelled separately by
`format_exception_line` below.) -/
def summary_of (env : Nat → ExcData) (v : Option Nat) : String :=
  match v with
  | none => none_summary
  | some i =>
      if (env i).msg = "" then (env i).tyName ++ "\n"
      else (env i).tyName ++ ": " ++ (env i).msg ++ "\n"

/-- The traceback block of `format_exception` lines 723–725: when the
`traceback` argument is not `None`, the trace-header line followed by
`format_frames(self.extract_frames(traceback), limit=limit)` — note the
caller's `limit` is passed to `format_frames` (where it lands in `**kwargs`),
while `extract_frames` is invoked with its default `limit=None` and therefore
windows by `sys.tracebacklimit` alone. -/
def tb_block (tracebacklimit : Option Int) (tb : Option Tb) : List String :=
  match tb with
  | none => []
  | some t =>
      traceback_header ::
        format_frames ((extract_frames (.traceback t) none tracebacklimit).toOption.getD [])

/-- Python `DefaultTracebackFormatter.format_exception`, fuel-indexed.
Returns `none` when the fuel is exhausted (the Python code has no such
bound; the fuel-stability theorem below shows enough fuel always exists),
otherwise `some (lines, visited)` where `lines` is the yielded sequence of
strings and `visited` instruments, in order, the identities added to the
`seen` set (`seen.add(id(value))`, line 708) — the errors whose formatting
was entered with chaining active.  The mutable `seen` set is modelled by
passing `insert i seen` down: the code performs at most one recursive call
per activation (the cause and context branches are mutually exclusive) and
never reads `seen` after that call returns, so the mutation is equivalent to
this functional threading. -/
def fmtExc (env : Nat → ExcData) (tracebacklimit : Option Int) (chain : Bool)
    (limit : Option Int) :
    Nat → Option Nat → Option Tb → Finset Nat → Option (List String × List Nat)
  | 0, _, _, _ => none
  | fuel + 1, v, tb, seen =>
    let chainPart : Option (List String × List Nat) :=
      match v with
      | none => some ([], [])
      | some i =>
        if chain then
          let seen1 := insert i seen
          match (env i).cause with
          | some c =>
              if c ∈ seen1 then some ([], [i])
              else
                match fmtExc env tracebacklimit chain limit fuel (some c) ((env c).tb) seen1 with
                | none => none
                | some p => some (p.1 ++ [cause_header], i :: p.2)
          | none =>
              match (env i).context with
              | some k =>
                  if (env i).suppress_context = true ∨ k ∈ seen1 then some ([], [i])
                  else
                    match fmtExc env tracebacklimit chain limit fuel (some k) ((env k).tb) seen1 with
                    | none => none
                    | some p => some (p.1 ++ [context_header], i :: p.2)
              | none => some ([], [i])
        else some ([], [])
    match chainPart with
    | none => none
    | some p => some (p.1 ++ tb_block tracebacklimit tb ++ [summary_of env v], p.2)

/-- A Python type object as seen by `_try_name`: the results of the attribute
accesses `type.__name__`, `type.__module__`, and (for the placeholder path)
`type.__class__.__qualname__`, each either a string or a raised error kind. -/
structure PyType where
  name : Except PyErr String
  module : Except PyErr String
  clsQualname : Except PyErr String

/-- A Python value as seen by `_try_str` / `_try_repr`: the results of
`str(value)`, `repr(value)`, and `value.__class__.__qualname__`. -/
structure PyVal where
  strRes : Except PyErr String
  reprRes : Except PyErr String
  clsQualname : Except PyErr String

/-- Python `TracebackFormatter._try_unprintable` on a value: formats
`"<unprintable {0.__class__.__qualname__} object>"`, falling back to the
fixed `_unprintable` string `"<unprintable object>"` on any failure (bare
`except`). -/
def try_unprintable_val (v : PyVal) : String :=
  match v.clsQualname with
  | .ok q => "<unprintable " ++ q ++ " object>"
  | .error _ => "<unprintable object>"

/-- Python `TracebackFormatter._try_unprintable` applied to a type object
(as `_try_name` does in its `AttributeError` branch): the format string
accesses the type's `__class__.__qualname__` (its metaclass's qualname). -/
def try_unprintable_ty (t : PyType) : String :=
  match t.clsQualname with
  | .ok q => "<unprintable " ++ q ++ " object>"
  | .error _ => "<unprintable object>"

/-- Python `TracebackFormatter._try_str`: `str(value)`, with any failure (bare
`except`) recovered by `_try_unprintable`. -/
def try_str (v : PyVal) : String :=
  match v.strRes with
  | .ok s => s
  | .error _ => try_unprintable_val v

/-- Python `TracebackFormatter._try_repr`: `repr(value)`, with any failure (bare
`except`) recovered by `_try_unprintable`. -/
def try_repr (v : PyVal) : String :=
  match v.reprRes with
  | .ok s => s
  | .error _ => try_unprintable_val v

/-- Python `TracebackFormatter._try_name`.  `type.__name__` is read under
`except AttributeError`; on that error kind the placeholder
`_try_unprintable(type)` is returned.  On success, `type.__module__` is read
in the `else` block and the name is qualified unless the module is
`"__main__"` or `"builtins"`; if the module access itself raises, the
`finally: return name` swallows the error and the bare name is returned.
If `type.__name__` raises any *other* kind, the `except` clause does not
match and the `finally: return name` evaluates the never-bound local
`name`, raising `UnboundLocalError` — the access error escapes as that. -/
def try_name (t : PyType) : Except PyErr String :=
  match t.name with
  | .ok n =>
      match t.module with
      | .ok m =>
          .ok (if m = "__main__" ∨ m = "builtins" then n else m ++ "." ++ n)
      | .error _ => .ok n
  | .error .attributeError => .ok (try_unprintable_ty t)
  | .error _ => .error .unboundLocalError

/-- Python `DefaultTracebackFormatter.format_exception_line`: resolve the type name
via `_try_name` and the message via `_try_str` (for the value `None`,
`str(None)` is `"None"` and never fails), then yield
`"{type_name}\n"` when `value is None or not value_str`, else
`"{type_name}: {value_str}\n"`.  The result is `Except` because `_try_name`
can raise (see `try_name`). -/
def format_exception_line (t : PyType) (v : Option PyVal) :
    Except PyErr (List String) :=
  match try_name t with
  | .error e => .error e
  | .ok tn =>
      let vs := match v with
        | none => "None"
        | some pv => try_str pv
      .ok [if v.isNone = true ∨ vs = "" then tn ++ "\n" else tn ++ ": " ++ vs ++ "\n"]

/-- The cause/context graph of an environment stays inside a finite universe
`U` of exception identities: every `__cause__` / `__context__` link of a
member of `U` lands back in `U`. -/
def Closed (U : Finset Nat) (env : Nat → ExcData) : Prop :=
  ∀ i ∈ U, (∀ c ∈ (env i).cause, c ∈ U) ∧ (∀ k ∈ (env i).context, k ∈ U)

/-- Predicate: `env'` agrees with `env` everywhere except possibly in the `__context__`
and `__suppress_context__` fields of the single exception `i`. -/
def AgreeExceptContext (env env' : Nat → ExcData) (i : Nat) : Prop :=
  (∀ j, j ≠ i → env' j = env j) ∧
    (env' i).cause = (env i).cause ∧ (env' i).tb = (env i).tb ∧
    (env' i).tyName = (env i).tyName ∧ (env' i).msg = (env i).msg

/-- A two-frame captured trace (outermost frame 1, then frame 2). -/
def c1Tb : Tb := .cons 1 (.last 2)

/-- One exception with the two-frame trace `c1Tb`, no cause, no context. -/
def c1Env : Nat → ExcData := fun _ => ⟨none, none, false, some c1Tb, "E", "m"⟩

/-- Exception 0 (`"B"`) has exception 1 (`"A"`) as its `__cause__`;
no contexts, no tracebacks. -/
def c3Env : Nat → ExcData := fun i =>
  if i = 0 then ⟨some 1, none, false, none, "B", "b"⟩
  else ⟨none, none, false, none, "A", "a"⟩

/-- Variant of `c3Env` with the `__context__` and `__suppress_context__` fields of
exception 0 changed (context 9, suppressed); everything else equal. -/
def c3Env' : Nat → ExcData := fun i =>
  if i = 0 then ⟨some 1, some 9, true, none, "B", "b"⟩
  else ⟨none, none, false, none, "A", "a"⟩

/-- A two-cycle of causes: exception 0's `__cause__` is 1 and exception 1's
`__cause__` is 0. -/
def c4CycEnv : Nat → ExcData := fun i =>
  if i = 0 then ⟨some 1, none, false, none, "E0", ""⟩
  else ⟨some 0, none, false, none, "E1", ""⟩

/-- An exception that is its own `__context__` (`X.__context__ is X`),
not suppressed, with no cause. -/
def c4SelfEnv : Nat → ExcData := fun _ => ⟨none, some 0, false, none, "E0", ""⟩

/-- A live-stack root: innermost frame 2 whose `f_back` is frame 1. -/
def c9Live : LiveFrame := .cons 2 (.last 1)

/-- The captured trace of the same logical stack as `c9Live`: outermost
frame 1, then frame 2. -/
def c9Tb : Tb := .cons 1 (.last 2)

/-- A type object whose `__name__` access raises a non-`AttributeError`
(here `TypeError`), while `__module__` and the metaclass qualname would
resolve fine. -/
def c8Ty : PyType := ⟨.error .typeError, .ok "mod", .ok "Meta"⟩

/-- A type object whose `__name__` access raises `AttributeError` and whose
metaclass qualname resolves to `"Meta"`. -/
def c8aTy : PyType := ⟨.error .attributeError, .ok "mod", .ok "Meta"⟩

/-- A value whose `str()` raises (a non-`AttributeError` kind) and whose
class qualname resolves to `"V"`. -/
def c8aVal : PyVal := ⟨.error .otherError, .ok "r", .ok "V"⟩

/-- A built-in exception type: `__name__` is `"ValueError"`, `__module__`
is `"builtins"`. -/
def c6Ty : PyType := ⟨.ok "ValueError", .ok "builtins", .ok "type"⟩

/-- A value whose `str()` is the non-empty message `"boom"`. -/
def c6Val : PyVal := ⟨.ok "boom", .ok "boom-r", .ok "ValueError"⟩

deriving instance DecidableEq for Except

theorem fmtExc_succ_none (env : Nat → ExcData) (tbl : Option Int) (chain : Bool)
    (limit : Option Int) (fuel : Nat) (tb : Option Tb) (seen : Finset Nat) :
    fmtExc env tbl chain limit (fuel + 1) none tb seen =
      some (tb_block tbl tb ++ [summary_of env none], []) := rfl

theorem fmtExc_succ_nochain (env : Nat → ExcData) (tbl : Option Int)
    (limit : Option Int) (fuel : Nat) (i : Nat) (tb : Option Tb) (seen : Finset Nat) :
    fmtExc env tbl false limit (fuel + 1) (some i) tb seen =
      some (tb_block tbl tb ++ [summary_of env (some i)], []) := rfl

theorem fmtExc_succ_cause_seen (env : Nat → ExcData) (tbl : Option Int)
    (limit : Option Int) (fuel : Nat) (i c : Nat) (tb : Option Tb) (seen : Finset Nat)
    (h : (env i).cause = some c) (hc : c ∈ insert i seen) :
    fmtExc env tbl true limit (fuel + 1) (some i) tb seen =
      some (tb_block tbl tb ++ [summary_of env (some i)], [i]) := by
  simp only [fmtExc, h, hc, if_true, if_pos]
  rfl

theorem fmtExc_succ_cause_unseen (env : Nat → ExcData) (tbl : Option Int)
    (limit : Option Int) (fuel : Nat) (i c : Nat) (tb : Option Tb) (seen : Finset Nat)
    (h : (env i).cause = some c) (hc : c ∉ insert i seen) :
    fmtExc env tbl true limit (fuel + 1) (some i) tb seen =
      match fmtExc env tbl true limit fuel (some c) ((env c).tb) (insert i seen) with
      | none => none
      | some p =>
          some (p.1 ++ [cause_header] ++ tb_block tbl tb ++ [summary_of env (some i)],
            i :: p.2) := by
  simp only [fmtExc, h, hc, if_true, if_neg, not_false_iff]
  cases fmtExc env tbl true limit fuel (some c) ((env c).tb) (insert i seen) with
  | none => rfl
  | some p => simp

theorem fmtExc_succ_nocause_nocontext (env : Nat → ExcData) (tbl : Option Int)
    (limit : Option Int) (fuel : Nat) (i : Nat) (tb : Option Tb) (seen : Finset Nat)
    (h : (env i).cause = none) (h2 : (env i).context = none) :
    fmtExc env tbl true limit (fuel + 1) (some i) tb seen =
      some (tb_block tbl tb ++ [summary_of env (some i)], [i]) := by
  simp only [fmtExc, h, h2, if_true]
  rfl

theorem fmtExc_succ_context_blocked (env : Nat → ExcData) (tbl : Option Int)
    (limit : Option Int) (fuel : Nat) (i k : Nat) (tb : Option Tb) (seen : Finset Nat)
    (h : (env i).cause = none) (h2 : (env i).context = some k)
    (h3 : (env i).suppress_context = true ∨ k ∈ insert i seen) :
    fmtExc env tbl true limit (fuel + 1) (some i) tb seen =
      some (tb_block tbl tb ++ [summary_of env (some i)], [i]) := by
  simp only [fmtExc, h, h2, if_true, if_pos h3]
  rfl

theorem fmtExc_succ_context_taken (env : Nat → ExcData) (tbl : Option Int)
    (limit : Option Int) (fuel : Nat) (i k : Nat) (tb : Option Tb) (seen : Finset Nat)
    (h : (env i).cause = none) (h2 : (env i).context = some k)
    (h3 : ¬((env i).suppress_context = true ∨ k ∈ insert i seen)) :
    fmtExc env tbl true limit (fuel + 1) (some i) tb seen =
      match fmtExc env tbl true limit fuel (some k) ((env k).tb) (insert i seen) with
      | none => none
      | some p =>
          some (p.1 ++ [context_header] ++ tb_block tbl tb ++ [summary_of env (some i)],
            i :: p.2) := by
  simp only [fmtExc, h, h2, if_true, if_neg h3]
  cases fmtExc env tbl true limit fuel (some k) ((env k).tb) (insert i seen) with
  | none => rfl
  | some p => simp

theorem sdiff_insert_card_lt {U seen : Finset Nat} {i : Nat}
    (hiU : i ∈ U) (his : i ∉ seen) :
    (U \ insert i seen).card < (U \ seen).card := by
  rw [Finset.sdiff_insert]
  exact Finset.card_erase_lt_of_mem (Finset.mem_sdiff.mpr ⟨hiU, his⟩)

theorem fmtExc_isSome (U : Finset Nat) (env : Nat → ExcData) (tbl : Option Int)
    (chain : Bool) (limit : Option Int) (hU : Closed U env) :
    ∀ fuel (v : Option Nat) (tb : Option Tb) (seen : Finset Nat),
      (∀ i, v = some i → i ∈ U ∧ i ∉ seen) →
      (U \ seen).card < fuel →
      fmtExc env tbl chain limit fuel v tb seen ≠ none := by
  intro fuel
  induction fuel with
  | zero => intro v tb seen _ h; omega
  | succ fuel ih =>
    intro v tb seen hv hcard
    match v with
    | none => rw [fmtExc_succ_none]; simp
    | some i =>
      obtain ⟨hiU, his⟩ := hv i rfl
      have hnext : (U \ insert i seen).card < fuel := by
        have := sdiff_insert_card_lt hiU his
        omega
      cases chain with
      | false => rw [fmtExc_succ_nochain]; simp
      | true =>
        cases hcause : (env i).cause with
        | some c =>
          by_cases hc : c ∈ insert i seen
          · rw [fmtExc_succ_cause_seen env tbl limit fuel i c tb seen hcause hc]
            simp
          · rw [fmtExc_succ_cause_unseen env tbl limit fuel i c tb seen hcause hc]
            have hcU : c ∈ U := ((hU i hiU).1 c hcause)
            have hrec := ih (some c) ((env c).tb) (insert i seen)
              (fun j hj => by cases hj; exact ⟨hcU, hc⟩) hnext
            cases hr : fmtExc env tbl true limit fuel (some c) ((env c).tb) (insert i seen) with
            | none => exact absurd hr hrec
            | some p => simp
        | none =>
          cases hctx : (env i).context with
          | none =>
            rw [fmtExc_succ_nocause_nocontext env tbl limit fuel i tb seen hcause hctx]
            simp
          | some k =>
            by_cases h3 : (env i).suppress_context = true ∨ k ∈ insert i seen
            · rw [fmtExc_succ_context_blocked env tbl limit fuel i k tb seen hcause hctx h3]
              simp
            · rw [fmtExc_succ_context_taken env tbl limit fuel i k tb seen hcause hctx h3]
              have hkU : k ∈ U := ((hU i hiU).2 k hctx)
              have hk : k ∉ insert i seen := fun hmem => h3 (Or.inr hmem)
              have hrec := ih (some k) ((env k).tb) (insert i seen)
                (fun j hj => by cases hj; exact ⟨hkU, hk⟩) hnext
              cases hr : fmtExc env tbl true limit fuel (some k) ((env k).tb) (insert i seen) with
              | none => exact absurd hr hrec
              | some p => simp

theorem fmtExc_succ_stable (U : Finset Nat) (env : Nat → ExcData) (tbl : Option Int)
    (chain : Bool) (limit : Option Int) (hU : Closed U env) :
    ∀ fuel (v : Option Nat) (tb : Option Tb) (seen : Finset Nat),
      (∀ i, v = some i → i ∈ U ∧ i ∉ seen) →
      (U \ seen).card < fuel →
      fmtExc env tbl chain limit (fuel + 1) v tb seen =
        fmtExc env tbl chain limit fuel v tb seen := by
  intro fuel
  induction fuel with
  | zero => intro v tb seen _ h; omega
  | succ fuel ih =>
    intro v tb seen hv hcard
    match v with
    | none => rw [fmtExc_succ_none, fmtExc_succ_none]
    | some i =>
      obtain ⟨hiU, his⟩ := hv i rfl
      have hnext : (U \ insert i seen).card < fuel := by
        have := sdiff_insert_card_lt hiU his
        omega
      cases chain with
      | false => rw [fmtExc_succ_nochain, fmtExc_succ_nochain]
      | true =>
        cases hcause : (env i).cause with
        | some c =>
          by_cases hc : c ∈ insert i seen
          · rw [fmtExc_succ_cause_seen env tbl limit (fuel + 1) i c tb seen hcause hc,
              fmtExc_succ_cause_seen env tbl limit fuel i c tb seen hcause hc]
          · rw [fmtExc_succ_cause_unseen env tbl limit (fuel + 1) i c tb seen hcause hc,
              fmtExc_succ_cause_unseen env tbl limit fuel i c tb seen hcause hc]
            have hcU : c ∈ U := ((hU i hiU).1 c hcause)
            rw [ih (some c) ((env c).tb) (insert i seen)
              (fun j hj => by cases hj; exact ⟨hcU, hc⟩) hnext]
        | none =>
          cases hctx : (env i).context with
          | none =>
            rw [fmtExc_succ_nocause_nocontext env tbl limit (fuel + 1) i tb seen hcause hctx,
              fmtExc_succ_nocause_nocontext env tbl limit fuel i tb seen hcause hctx]
          | some k =>
            by_cases h3 : (env i).suppress_context = true ∨ k ∈ insert i seen
            · rw [fmtExc_succ_context_blocked env tbl limit (fuel + 1) i k tb seen hcause hctx h3,
                fmtExc_succ_context_blocked env tbl limit fuel i k tb seen hcause hctx h3]
            · rw [fmtExc_succ_context_taken env tbl limit (fuel + 1) i k tb seen hcause hctx h3,
                fmtExc_succ_context_taken env tbl limit fuel i k tb seen hcause hctx h3]
              have hkU : k ∈ U := ((hU i hiU).2 k hctx)
              have hk : k ∉ insert i seen := fun hmem => h3 (Or.inr hmem)
              rw [ih (some k) ((env k).tb) (insert i seen)
                (fun j hj => by cases hj; exact ⟨hkU, hk⟩) hnext]

theorem fmtExc_stable (U : Finset Nat) (env : Nat → ExcData) (tbl : Option Int)
    (chain : Bool) (limit : Option Int) (hU : Closed U env) :
    ∀ fuel (v : Option Nat) (tb : Option Tb) (seen : Finset Nat),
      (∀ i, v = some i → i ∈ U ∧ i ∉ seen) →
      (U \ seen).card < fuel →
      fmtExc env tbl chain limit fuel v tb seen =
        fmtExc env tbl chain limit ((U \ seen).card + 1) v tb seen := by
  intro fuel
  induction fuel with
  | zero => intro v tb seen _ h; omega
  | succ fuel ih =>
    intro v tb seen hv hcard
    by_cases h : (U \ seen).card < fuel
    · rw [fmtExc_succ_stable U env tbl chain limit hU fuel v tb seen hv h]
      exact ih v tb seen hv h
    · have : fuel = (U \ seen).card := by omega
      rw [this]

theorem fmtExc_visited_nodup (env : Nat → ExcData) (tbl : Option Int)
    (chain : Bool) (limit : Option Int) :
    ∀ fuel (v : Option Nat) (tb : Option Tb) (seen : Finset Nat)
      (ls : List String) (vis : List Nat),
      (∀ i, v = some i → i ∉ seen) →
      fmtExc env tbl chain limit fuel v tb seen = some (ls, vis) →
      vis.Nodup ∧ ∀ j ∈ vis, j ∉ seen := by
  intro fuel
  induction fuel with
  | zero => intro v tb seen ls vis _ h; exact absurd h (by simp [fmtExc])
  | succ fuel ih =>
    intro v tb seen ls vis hv heq
    match v with
    | none =>
      rw [fmtExc_succ_none] at heq
      simp at heq
      obtain ⟨-, hvis⟩ := heq
      subst hvis
      simp
    | some i =>
      have his : i ∉ seen := hv i rfl
      cases chain with
      | false =>
        rw [fmtExc_succ_nochain] at heq
        simp at heq
        obtain ⟨-, hvis⟩ := heq
        subst hvis
        simp
      | true =>
        cases hcause : (env i).cause with
        | some c =>
          by_cases hc : c ∈ insert i seen
          · rw [fmtExc_succ_cause_seen env tbl limit fuel i c tb seen hcause hc] at heq
            simp at heq
            obtain ⟨-, hvis⟩ := heq
            subst hvis
            simpa using his
          · rw [fmtExc_succ_cause_unseen env tbl limit fuel i c tb seen hcause hc] at heq
            cases hr : fmtExc env tbl true limit fuel (some c) ((env c).tb) (insert i seen) with
            | none => rw [hr] at heq; exact absurd heq (by simp)
            | some p =>
              rw [hr] at heq
              simp at heq
              obtain ⟨-, hvis⟩ := heq
              subst hvis
              obtain ⟨hnd, hout⟩ := ih (some c) ((env c).tb) (insert i seen) p.1 p.2
                (fun j hj => by cases hj; exact hc) hr
              refine ⟨List.nodup_cons.mpr ⟨fun hmem => ?_, hnd⟩, ?_⟩
              · exact hout i hmem (Finset.mem_insert_self i seen)
              · intro j hj
                rcases List.mem_cons.mp hj with h | h
                · subst h; exact his
                · exact fun hjs => hout j h (Finset.mem_insert_of_mem hjs)
        | none =>
          cases hctx : (env i).context with
          | none =>
            rw [fmtExc_succ_nocause_nocontext env tbl limit fuel i tb seen hcause hctx] at heq
            simp at heq
            obtain ⟨-, hvis⟩ := heq
            subst hvis
            simpa using his
          | some k =>
            by_cases h3 : (env i).suppress_context = true ∨ k ∈ insert i seen
            · rw [fmtExc_succ_context_blocked env tbl limit fuel i k tb seen hcause hctx h3] at heq
              simp at heq
              obtain ⟨-, hvis⟩ := heq
              subst hvis
              simpa using his
            · rw [fmtExc_succ_context_taken env tbl limit fuel i k tb seen hcause hctx h3] at heq
              have hk : k ∉ insert i seen := fun hmem => h3 (Or.inr hmem)
              cases hr : fmtExc env tbl true limit fuel (some k) ((env k).tb) (insert i seen) with
              | none => rw [hr] at heq; exact absurd heq (by simp)
              | some p =>
                rw [hr] at heq
                simp at heq
                obtain ⟨-, hvis⟩ := heq
                subst hvis
                obtain ⟨hnd, hout⟩ := ih (some k) ((env k).tb) (insert i seen) p.1 p.2
                  (fun j hj => by cases hj; exact hk) hr
                refine ⟨List.nodup_cons.mpr ⟨fun hmem => ?_, hnd⟩, ?_⟩
                · exact hout i hmem (Finset.mem_insert_self i seen)
                · intro j hj
                  rcases List.mem_cons.mp hj with h | h
                  · subst h; exact his
                  · exact fun hjs => hout j h (Finset.mem_insert_of_mem hjs)

theorem summary_of_congr (env env' : Nat → ExcData)
    (h3 : ∀ j, (env' j).tyName = (env j).tyName)
    (h4 : ∀ j, (env' j).msg = (env j).msg) (v : Option Nat) :
    summary_of env' v = summary_of env v := by
  cases v with
  | none => rfl
  | some i => simp only [summary_of, h3, h4]

theorem fmtExc_congr (env env' : Nat → ExcData) (tbl : Option Int)
    (chain : Bool) (limit : Option Int)
    (h1 : ∀ j, (env' j).cause = (env j).cause)
    (h2 : ∀ j, (env' j).tb = (env j).tb)
    (h3 : ∀ j, (env' j).tyName = (env j).tyName)
    (h4 : ∀ j, (env' j).msg = (env j).msg)
    (h5 : ∀ j, (env j).cause = none →
      (env' j).context = (env j).context ∧
        (env' j).suppress_context = (env j).suppress_context) :
    ∀ fuel (v : Option Nat) (tb : Option Tb) (seen : Finset Nat),
      fmtExc env' tbl chain limit fuel v tb seen =
        fmtExc env tbl chain limit fuel v tb seen := by
  intro fuel
  induction fuel with
  | zero => intro v tb seen; rfl
  | succ fuel ih =>
    intro v tb seen
    match v with
    | none => rw [fmtExc_succ_none, fmtExc_succ_none, summary_of_congr env env' h3 h4]
    | some i =>
      cases chain with
      | false =>
        rw [fmtExc_succ_nochain, fmtExc_succ_nochain, summary_of_congr env env' h3 h4]
      | true =>
        cases hcause : (env i).cause with
        | some c =>
          have hcause' : (env' i).cause = some c := by rw [h1, hcause]
          by_cases hc : c ∈ insert i seen
          · rw [fmtExc_succ_cause_seen env tbl limit fuel i c tb seen hcause hc,
              fmtExc_succ_cause_seen env' tbl limit fuel i c tb seen hcause' hc,
              summary_of_congr env env' h3 h4]
          · rw [fmtExc_succ_cause_unseen env tbl limit fuel i c tb seen hcause hc,
              fmtExc_succ_cause_unseen env' tbl limit fuel i c tb seen hcause' hc,
              h2 c, ih (some c) ((env c).tb) (insert i seen),
              summary_of_congr env env' h3 h4]
        | none =>
          have hcause' : (env' i).cause = none := by rw [h1, hcause]
          obtain ⟨hc5, hs5⟩ := h5 i hcause
          cases hctx : (env i).context with
          | none =>
            have hctx' : (env' i).context = none := by rw [hc5, hctx]
            rw [fmtExc_succ_nocause_nocontext env tbl limit fuel i tb seen hcause hctx,
              fmtExc_succ_nocause_nocontext env' tbl limit fuel i tb seen hcause' hctx',
              summary_of_congr env env' h3 h4]
          | some k =>
            have hctx' : (env' i).context = some k := by rw [hc5, hctx]
            by_cases hb : (env i).suppress_context = true ∨ k ∈ insert i seen
            · have hb' : (env' i).suppress_context = true ∨ k ∈ insert i seen := by
                rw [hs5]; exact hb
              rw [fmtExc_succ_context_blocked env tbl limit fuel i k tb seen hcause hctx hb,
                fmtExc_succ_context_blocked env' tbl limit fuel i k tb seen hcause' hctx' hb',
                summary_of_congr env env' h3 h4]
            · have hb' : ¬((env' i).suppress_context = true ∨ k ∈ insert i seen) := by
                rw [hs5]; exact hb
              rw [fmtExc_succ_context_taken env tbl limit fuel i k tb seen hcause hctx hb,
                fmtExc_succ_context_taken env' tbl limit fuel i k tb seen hcause' hctx' hb',
                h2 k, ih (some k) ((env k).tb) (insert i seen),
                summary_of_congr env env' h3 h4]

/-- C1: evaluation at the failing input.  An exception with a two-frame
trace is formatted with `limit = 1`, yet both frame lines are rendered:
`format_exception` line 725 passes `limit` to `format_frames` (whose
contract takes no limit) instead of to `extract_frames`, so the caller's
limit never windows the trace, contradicting the spec's
`extract(E.trace, limit)`. -/
theorem claim_c1_format_exception_ignores_limit :
    fmtExc c1Env none true (some 1) 1 (some 0) (some c1Tb) ∅ =
      some ([traceback_header, frame_line 1, frame_line 2, "E: m\n"], [0]) := by
  decide

/-- C2: evaluation at the failing input.  With `sys.tracebacklimit` unset,
`extract_frames` with `limit = 0` yields all the frames of each source form
rather than the empty sequence: the line
`limit = limit or getattr(sys, "tracebacklimit", None)` treats `0` as falsy
and discards it. -/
theorem claim_c2_limit_zero_not_empty :
    extract_frames (.traceback (.last 7)) (some 0) none = .ok [7] ∧
    extract_frames (.frame (.last 7)) (some 0) none = .ok [7] ∧
    extract_frames (.frames [7]) (some 0) none = .ok [7] :=
  ⟨rfl, rfl, rfl⟩

/-- C5: for a frame sequence, a positive limit `N ≥ 1` yields the first
`min(N, total)` frames and a negative limit `-N` yields the last
`min(N, total)` frames in original order; but at the claimed boundary
`N = 0` (third conjunct, evaluated at the failing input) the code yields
the whole sequence instead of the empty one, because `limit or ...`
discards a zero limit. -/
theorem claim_c5_window_semantics :
    (∀ (xs : List Nat) (N : Nat), 1 ≤ N →
      extract_frames (.frames xs) (some (N : Int)) none = .ok (xs.take N)) ∧
    (∀ (xs : List Nat) (N : Nat), 1 ≤ N →
      extract_frames (.frames xs) (some (-(N : Int))) none =
        .ok (xs.drop (xs.length - N))) ∧
    extract_frames (.frames [5]) (some 0) none = .ok [5] := by
  refine ⟨?_, ?_, rfl⟩
  · intro xs N hN
    have h0 : ¬((N : Int) = 0) := by omega
    simp only [extract_frames, effective_limit, if_neg h0, apply_window]
    rw [if_pos (Int.natCast_nonneg N), Int.toNat_natCast]
  · intro xs N hN
    have h0 : ¬(-(N : Int) = 0) := by omega
    have h1 : ¬(0 ≤ -(N : Int)) := by omega
    simp only [extract_frames, effective_limit, if_neg h0, apply_window,
      if_neg h1, neg_neg, Int.toNat_natCast]

/-- C5 witness: the windowing behaviour at the concrete sequence
`[1, 2, 3]` with limits `2` and `-2`. -/
theorem claim_c5_window_semantics_witness :
    extract_frames (.frames [1, 2, 3]) (some 2) none = .ok [1, 2] ∧
    extract_frames (.frames [1, 2, 3]) (some (-2)) none = .ok [2, 3] :=
  ⟨(claim_c5_window_semantics.1 [1, 2, 3] 2 (by decide)).trans (by decide),
    (claim_c5_window_semantics.2.1 [1, 2, 3] 2 (by decide)).trans (by decide)⟩

/-- C7: evaluation at the failing input.  An absent (`None`) source makes
the extractor raise `TypeError` when consumed — `None` matches neither
`isinstance` test and falls through to `generator = obj`, which is not
iterable — while an empty materialized source does yield the empty
sequence without error. -/
theorem claim_c7_absent_source_raises :
    extract_frames .pynone none none = .error .typeError ∧
    extract_frames .pynone (some 1) none = .error .typeError ∧
    extract_frames (.frames []) none none = .ok [] :=
  ⟨rfl, rfl, rfl⟩

/-- C9: with no limit argument and `sys.tracebacklimit` unset, a live-stack
root (caller-linked, innermost first) and a captured-trace head
(next-linked, outermost first) representing the same logical stack yield
the identical, complete, outermost-first frame sequence: the live walk is
reversed (`reversed(list(self.walk_stack(obj)))`), the trace walk is used
directly. -/
theorem claim_c9_walk_equivalence (f : LiveFrame) (t : Tb)
    (h : (walk_stack (some f)).reverse = walk_traceback (some t)) :
    extract_frames (.frame f) none none = .ok (walk_traceback (some t)) ∧
    extract_frames (.traceback t) none none = .ok (walk_traceback (some t)) := by
  constructor
  · show Except.ok ((walk_stack (some f)).reverse) = _
    rw [h]
  · rfl

/-- C9 witness: the two-frame stack, live form `c9Live` (innermost frame 2,
caller frame 1) and captured form `c9Tb` (outermost frame 1, then 2). -/
theorem claim_c9_walk_equivalence_witness :
    (walk_stack (some c9Live)).reverse = walk_traceback (some c9Tb) ∧
    extract_frames (.frame c9Live) none none = .ok (walk_traceback (some c9Tb)) ∧
    extract_frames (.traceback c9Tb) none none = .ok (walk_traceback (some c9Tb)) :=
  ⟨by decide, (claim_c9_walk_equivalence c9Live c9Tb (by decide)).1,
    (claim_c9_walk_equivalence c9Live c9Tb (by decide)).2⟩

/-- C10: a falsy limit (`None` or `0`) is silently replaced by the
process-wide `sys.tracebacklimit` whenever that attribute is set, so the
yielded frames depend on this global state: the first two conjuncts show
the substituted window being applied, the third shows the very same call
yielding different frames under a different global value. -/
theorem claim_c10_tracebacklimit_substitution :
    (∀ (xs : List Nat) (t : Int),
      extract_frames (.frames xs) none (some t) = .ok (apply_window (some t) xs)) ∧
    (∀ (xs : List Nat) (t : Int),
      extract_frames (.frames xs) (some 0) (some t) = .ok (apply_window (some t) xs)) ∧
    extract_frames (.frames [1, 2]) none (some 1) ≠
      extract_frames (.frames [1, 2]) none none := by
  refine ⟨fun xs t => rfl, fun xs t => rfl, by decide⟩

/-- C3: with `chain=true`, an existing, not-yet-seen cause is recursively
formatted in full strictly before the cause-header line, which precedes the
current error's traceback block and summary line (first conjunct); and
whenever a cause exists the context is never consulted — the result is
unchanged under any modification of the current error's `__context__` and
`__suppress_context__` fields (second conjunct). -/
theorem claim_c3_cause_order_and_precedence :
    (∀ (env : Nat → ExcData) (tbl limit : Option Int) (fuel : Nat) (i c : Nat)
        (tb : Option Tb) (seen : Finset Nat),
      (env i).cause = some c → c ∉ insert i seen →
      fmtExc env tbl true limit (fuel + 1) (some i) tb seen =
        match fmtExc env tbl true limit fuel (some c) ((env c).tb) (insert i seen) with
        | none => none
        | some p =>
            some (p.1 ++ [cause_header] ++ tb_block tbl tb ++ [summary_of env (some i)],
              i :: p.2)) ∧
    (∀ (env env' : Nat → ExcData) (i : Nat), AgreeExceptContext env env' i →
      (env i).cause ≠ none →
      ∀ (tbl limit : Option Int) (chain : Bool) (fuel : Nat) (v : Option Nat)
        (tb : Option Tb) (seen : Finset Nat),
        fmtExc env' tbl chain limit fuel v tb seen =
          fmtExc env tbl chain limit fuel v tb seen) := by
  constructor
  · intro env tbl limit fuel i c tb seen h hc
    exact fmtExc_succ_cause_unseen env tbl limit fuel i c tb seen h hc
  · intro env env' i hag hcne tbl limit chain fuel v tb seen
    obtain ⟨hext, hca, htb, hty, hmsg⟩ := hag
    refine fmtExc_congr env env' tbl chain limit ?_ ?_ ?_ ?_ ?_ fuel v tb seen
    · intro j
      by_cases hj : j = i
      · subst hj; exact hca
      · rw [hext j hj]
    · intro j
      by_cases hj : j = i
      · subst hj; exact htb
      · rw [hext j hj]
    · intro j
      by_cases hj : j = i
      · subst hj; exact hty
      · rw [hext j hj]
    · intro j
      by_cases hj : j = i
      · subst hj; exact hmsg
      · rw [hext j hj]
    · intro j hj
      by_cases hij : j = i
      · subst hij; exact absurd hj hcne
      · rw [hext j hij]; exact ⟨rfl, rfl⟩

/-- C3 witness: exception 0 (`"B"`) with cause 1 (`"A"`), starting from an
empty `seen` set; and the same graph with exception 0's context and
suppression flag altered (`c3Env'`), yielding identical output. -/
theorem claim_c3_cause_order_and_precedence_witness :
    ((c3Env 0).cause = some 1 ∧ (1 : Nat) ∉ insert 0 (∅ : Finset Nat)) ∧
    (fmtExc c3Env none true none 2 (some 0) none ∅ =
      match fmtExc c3Env none true none 1 (some 1) ((c3Env 1).tb) (insert 0 ∅) with
      | none => none
      | some p =>
          some (p.1 ++ [cause_header] ++ tb_block none none ++ [summary_of c3Env (some 0)],
            0 :: p.2)) ∧
    fmtExc c3Env' none true none 2 (some 0) none ∅ =
      fmtExc c3Env none true none 2 (some 0) none ∅ := by
  refine ⟨⟨by decide, by decide⟩, ?_, ?_⟩
  · exact claim_c3_cause_order_and_precedence.1 c3Env none none 1 0 1 none ∅
      (by decide) (by decide)
  · refine claim_c3_cause_order_and_precedence.2 c3Env c3Env' 0
      ⟨?_, rfl, rfl, rfl, rfl⟩ (by decide) none none true 2 (some 0) none ∅
    intro j hj
    simp [c3Env, c3Env', hj]

/-- C4: with `chain=true`, (1) for any cause/context graph closed in a
finite universe `U` — cyclic graphs included — formatting terminates: any
fuel beyond `|U|` yields the same defined result; (2) each distinct error
identity is entered at most once per top-level invocation (the instrumented
visit order has no duplicates); (3) an error that is its own context yields
no context header and no recursion — fuel `1` already suffices and the
output holds only its own summary line. -/
theorem claim_c4_cycles_terminate_once :
    (∀ (U : Finset Nat) (env : Nat → ExcData) (tbl limit : Option Int)
        (tb : Option Tb) (i : Nat), Closed U env → i ∈ U →
      ∀ fuel, U.card < fuel →
        fmtExc env tbl true limit fuel (some i) tb ∅ =
          fmtExc env tbl true limit (U.card + 1) (some i) tb ∅ ∧
        fmtExc env tbl true limit (U.card + 1) (some i) tb ∅ ≠ none) ∧
    (∀ (env : Nat → ExcData) (tbl limit : Option Int) (fuel : Nat) (v : Option Nat)
        (tb : Option Tb) (ls : List String) (vis : List Nat),
      fmtExc env tbl true limit fuel v tb ∅ = some (ls, vis) → vis.Nodup) ∧
    (fmtExc c4SelfEnv none true none 1 (some 0) none ∅ = some (["E0\n"], [0]) ∧
      context_header ∉ ["E0\n"]) := by
  refine ⟨?_, ?_, by decide, by decide⟩
  · intro U env tbl limit tb i hU hiU fuel hfuel
    have hv : ∀ j, (some i : Option Nat) = some j → j ∈ U ∧ j ∉ (∅ : Finset Nat) := by
      intro j hj
      cases hj
      exact ⟨hiU, Finset.not_mem_empty i⟩
    have hcard : (U \ ∅).card = U.card := by rw [Finset.sdiff_empty]
    constructor
    · have h := fmtExc_stable U env tbl true limit hU fuel (some i) tb ∅ hv
        (by rw [hcard]; exact hfuel)
      rw [hcard] at h
      exact h
    · exact fmtExc_isSome U env tbl true limit hU (U.card + 1) (some i) tb ∅ hv
        (by rw [hcard]; omega)
  · intro env tbl limit fuel v tb ls vis heq
    exact (fmtExc_visited_nodup env tbl true limit fuel v tb ∅ ls vis
      (fun i _ => Finset.not_mem_empty i) heq).1

/-- C4 witness: the two-cycle of causes `c4CycEnv` (0's cause is 1, 1's
cause is 0) inside the universe `{0, 1}`: formatting terminates with a
stable result already at fuel 3, and the instrumented visit order `[0, 1]`
has no duplicates. -/
theorem claim_c4_cycles_terminate_once_witness :
    (fmtExc c4CycEnv none true none 5 (some 0) none ∅ =
      fmtExc c4CycEnv none true none (({0, 1} : Finset Nat).card + 1) (some 0) none ∅ ∧
      fmtExc c4CycEnv none true none (({0, 1} : Finset Nat).card + 1) (some 0) none ∅ ≠ none) ∧
    ([0, 1] : List Nat).Nodup :=
  ⟨claim_c4_cycles_terminate_once.1 {0, 1} c4CycEnv none none none 0
      (by unfold Closed; decide) (by decide) 5 (by decide),
    claim_c4_cycles_terminate_once.2.1 c4CycEnv none none 3 (some 0) none
      ["E1\n", cause_header, "E0\n"] [0, 1] (by decide)⟩

/-- C6: when the type's `__name__` and `__module__` resolve, the summary
line is `"{TypeName}: {message}\n"` for a non-empty stringified message and
`"{TypeName}\n"` (no colon, no trailing space) for an empty message or a
`None` value, where the type name is module-qualified unless the module is
`"__main__"` or `"builtins"`. -/
theorem claim_c6_summary_line (t : PyType) (n m : String)
    (hn : t.name = Except.ok n) (hm : t.module = Except.ok m) :
    (∀ (pv : PyVal) (s : String), pv.strRes = Except.ok s → s ≠ "" →
      format_exception_line t (some pv) =
        .ok [(if m = "__main__" ∨ m = "builtins" then n else m ++ "." ++ n) ++
          ": " ++ s ++ "\n"]) ∧
    (∀ pv : PyVal, pv.strRes = Except.ok "" →
      format_exception_line t (some pv) =
        .ok [(if m = "__main__" ∨ m = "builtins" then n else m ++ "." ++ n) ++ "\n"]) ∧
    format_exception_line t none =
      .ok [(if m = "__main__" ∨ m = "builtins" then n else m ++ "." ++ n) ++ "\n"] := by
  have htn : try_name t =
      .ok (if m = "__main__" ∨ m = "builtins" then n else m ++ "." ++ n) := by
    simp only [try_name, hn, hm]
  refine ⟨?_, ?_, ?_⟩
  · intro pv s hs hne
    simp [format_exception_line, htn, try_str, hs, hne]
  · intro pv hs
    simp [format_exception_line, htn, try_str, hs]
  · simp [format_exception_line, htn]

/-- C6 witness: the built-in type `ValueError` with the non-empty message
`"boom"` yields `"ValueError: boom\n"`, and with a `None` value yields
`"ValueError\n"`. -/
theorem claim_c6_summary_line_witness :
    format_exception_line c6Ty (some c6Val) = .ok ["ValueError: boom\n"] ∧
    format_exception_line c6Ty none = .ok ["ValueError\n"] :=
  ⟨((claim_c6_summary_line c6Ty "ValueError" "builtins" rfl rfl).1 c6Val "boom"
      rfl (by decide)).trans (by decide),
    ((claim_c6_summary_line c6Ty "ValueError" "builtins" rfl rfl).2.2).trans (by decide)⟩

/-- C8: counterexample.  The claim says a display failure of any kind is
replaced by a placeholder and never surfaced, but `_try_name` catches only
`AttributeError`: for a type whose `__name__` access raises `TypeError`
(`c8Ty`), the `finally: return name` evaluates the never-bound local and
formatting aborts with `UnboundLocalError`. -/
theorem claim_c8_display_failure_counterexample :
    format_exception_line c8Ty none = .error .unboundLocalError := rfl

/-- C8 amended: display failures are recovered by placeholders — and
formatting never aborts — provided a failing type-name access raises
`AttributeError`; string conversion and repr failures of any kind are
always recovered, with the placeholder carrying the runtime class's
qualified name when obtainable and the generic `"<unprintable object>"`
marker otherwise. -/
theorem claim_c8_display_failure_amended :
    (∀ (t : PyType) (v : Option PyVal),
      (t.name = .error .attributeError ∨ ∃ n, t.name = Except.ok n) →
      (format_exception_line t v).isOk = true) ∧
    (∀ (pv : PyVal) (e : PyErr), pv.strRes = .error e →
      try_str pv = try_unprintable_val pv) ∧
    (∀ (pv : PyVal) (e : PyErr), pv.reprRes = .error e →
      try_repr pv = try_unprintable_val pv) ∧
    (∀ t : PyType, t.name = .error .attributeError →
      try_name t = .ok (try_unprintable_ty t)) ∧
    (∀ (pv : PyVal) (q : String), pv.clsQualname = Except.ok q →
      try_unprintable_val pv = "<unprintable " ++ q ++ " object>") ∧
    (∀ (pv : PyVal) (e : PyErr), pv.clsQualname = .error e →
      try_unprintable_val pv = "<unprintable object>") := by
  refine ⟨?_, ?_, ?_, ?_, ?_, ?_⟩
  · intro t v h
    rcases h with h | ⟨n, h⟩
    · simp [format_exception_line, try_name, h, Except.isOk, Except.toBool]
    · cases hm : t.module with
      | ok m => simp [format_exception_line, try_name, h, hm, Except.isOk, Except.toBool]
      | error e => simp [format_exception_line, try_name, h, hm, Except.isOk, Except.toBool]
  · intro pv e h
    simp [try_str, h]
  · intro pv e h
    simp [try_repr, h]
  · intro t h
    simp [try_name, h]
  · intro pv q h
    simp [try_unprintable_val, h]
  · intro pv e h
    simp [try_unprintable_val, h]

/-- C8 amended witness: a type whose `__name__` raises `AttributeError` is
recovered (the formatted line is produced), and a value whose `str()`
raises is replaced by the placeholder carrying its class qualname `"V"`. -/
theorem claim_c8_display_failure_amended_witness :
    (format_exception_line c8aTy none).isOk = true ∧
    try_str c8aVal = try_unprintable_val c8aVal ∧
    try_unprintable_val c8aVal = "<unprintable V object>" :=
  ⟨claim_c8_display_failure_amended.1 c8aTy none (Or.inl rfl),
    claim_c8_display_failure_amended.2.1 c8aVal .otherError rfl,
    claim_c8_display_failure_amended.2.2.2.2.1 c8aVal "V" rfl⟩

end Pretty
